import Mathlib

/-!
# Verification of the fstransform core against its specification

Shallow embedding of the fstransform sources:
* `src/src/transform.cc`          — remap tool entry point and CLI handling
* `src/unnamed/part_000`          — `io/io_posix.cc` of the tree mover (`fm_io_posix`)
* `src/fsremap/src/tmp_zero.cc`   — hole zeroer (`ff_zero_loop_file_holes`) and
                                    `io/io_posix.cc` of the remap engine (`ft_io_posix`)

Pure functions of the C++ sources are translated into executable Lean functions;
stateful syscall sequences are modelled as explicit traces of emitted operations,
with an environment supplying each syscall's `errno` result (0 = success).
-/

namespace Fstransform

/-! ## Common errno constants (values as on Linux; only distinctness and
non-zeroness matter to the sources). -/

def EXDEV : Nat := 18
def EINVAL : Nat := 22
def ENOTCONN : Nat := 107
def EISCONN : Nat := 106
def EOVERFLOW : Nat := 75
def EOPNOTSUPP : Nat := 95
def EFAULT : Nat := 14

/-! ## C1 — command line of the remap tool (`src/src/transform.cc`)

`ft_transform::main` (lines 60–76): a single argument `--help` (argc == 2 and
`!strcmp("--help", argv[1])`) calls `usage()` which returns 0; otherwise
`init(argc, argv)` runs.

`ft_transform::init` (lines 132–151): a fresh transformer passes
`check_is_closed()` (it is not initialized), then
* `argc <= 1` → `invalid_cmdline` (prints to stderr, suggests `--help`, returns 1)
* `argc <= 2` → `invalid_cmdline` → 1
* `argc <= 3` → `invalid_cmdline` → 1
* otherwise (`argc >= 4`, i.e. three or more positional arguments) the argument
  check passes and init proceeds to `init_job()` / `init_io_posix(&argv[1])`,
  which only use `argv[1..3]`.
-/

/-- Outcome of the command-line-dispatch phase of `ft_transform::main`. -/
inductive CmdOutcome where
  | helpExit0    -- `usage()` printed to stdout, return 0
  | usageError1  -- `invalid_cmdline`: usage error to stderr, suggest --help, return 1
  | proceed      -- argument check passed; `init_job` / `init_io_posix` run next
deriving DecidableEq, Repr

/-- Embedding of the argument-count dispatch of `ft_transform::main` /
`ft_transform::init`.  `argv` is the full argument vector including the
program name, so `argc = argv.length`. -/
def ft_transform_cmdline (argv : List String) : CmdOutcome :=
  let argc := argv.length
  if argc = 2 ∧ argv.getD 1 "" = "--help" then
    CmdOutcome.helpExit0
  else if argc ≤ 1 then CmdOutcome.usageError1
  else if argc ≤ 2 then CmdOutcome.usageError1
  else if argc ≤ 3 then CmdOutcome.usageError1
  else CmdOutcome.proceed

/-- Convenience wrapper: program name plus the positional argument list. -/
def remapCmdline (prog : String) (args : List String) : CmdOutcome :=
  ft_transform_cmdline (prog :: args)

/-! ## Filesystem operations of the tree mover (`fm_io_posix`, src/unnamed/part_000)

Every destructive syscall the mover can attempt is recorded in a trace.
An `FsOp.symlink a b` records the literal C call `symlink(a, b)`; POSIX
semantics create, at path `b`, a symbolic link whose content is the string `a`. -/

inductive FsOp where
  | mknod (path : String) (mode rdev : Nat)
  | mkfifo (path : String) (mode : Nat)
  | symlink (arg1 arg2 : String)
  | mkdir (path : String) (mode : Nat)
  | rmdir (path : String)
  | openRead (path : String)
  | openCreateWrite (path : String) (mode : Nat)
  | writeChunk (len : Nat)
  | unlink (path : String)
  | utimes (path : String) (atime mtime usec : Nat)
  | lchown (path : String) (uid gid : Nat)
  | chmod (path : String) (mode : Nat)
  | rename (source target : String)
deriving DecidableEq, Repr

/-- Path at which the C call `symlink(arg1, arg2)` creates the new link
(POSIX: the second argument is the link path). -/
def symlinkPathOf : FsOp → Option String
  | FsOp.symlink _ arg2 => some arg2
  | _ => none

/-- Content (link target string) of the link created by `symlink(arg1, arg2)`
(POSIX: the first argument is the content). -/
def symlinkContentOf : FsOp → Option String
  | FsOp.symlink arg1 _ => some arg1
  | _ => none

/-- File kind as discriminated by the `S_ISxxx` macros on `st_mode`. -/
inductive FileKind where
  | reg | dir | chr | blk | sock | fifo | lnk | other
deriving DecidableEq, Repr

/-- The fields of `struct stat` the mover reads. -/
structure FtStat where
  kind : FileKind
  mode : Nat
  uid : Nat
  gid : Nat
  atime : Nat
  mtime : Nat
  rdev : Nat
deriving DecidableEq, Repr

/-- Environment of a mover run: the simulation flag (`simulate_run()`) and an
oracle giving each attempted syscall's `errno` (0 = success).  `ff_log(FC_ERROR,
errno, ...)` returns the errno it is given (log.hh is outside src/; the spec's
§7 error model propagates `Io(errno)`). -/
structure SysEnv where
  simulate : Bool
  errno : FsOp → Nat

/-! ### `fm_io_posix::copy_stat` (part_000 lines 322–352)

First do-while: `utimes` with both `tv_usec` fields 0; on failure only a
warning is logged (`err` untouched).  Second do-while: `lchown`; failure is
fatal and breaks.  Then, only when the source is not a symlink
(`!S_ISLNK(stat.st_mode)` short-circuits the `&&`), `chmod` to `st_mode`;
failure is fatal. -/

def copy_stat (env : SysEnv) (target : String) (st : FtStat) : Int × List FsOp :=
  let opUtimes := FsOp.utimes target st.atime st.mtime 0
  let opLchown := FsOp.lchown target st.uid st.gid
  let opChmod := FsOp.chmod target st.mode
  -- utimes is attempted unconditionally; its errno is dropped (warning only)
  let t0 := [opUtimes]
  if env.errno opLchown ≠ 0 then
    ((env.errno opLchown : Int), t0 ++ [opLchown])
  else if st.kind = FileKind.lnk then
    (0, t0 ++ [opLchown])
  else if env.errno opChmod ≠ 0 then
    ((env.errno opChmod : Int), t0 ++ [opLchown, opChmod])
  else
    (0, t0 ++ [opLchown, opChmod])

/-! ### `fm_io_posix::move_special` (part_000 lines 168–223)

`simulate_run()` returns 0 before any syscall.  Dispatch on `st_mode`:
char/block/socket → `mknod(target, (mode|0600)&~0077, rdev)`, where a failure is
fatal unless the node is a socket (warning only); fifo → `mkfifo(target, 0600)`;
symlink → `readlink(source)` into `link_to` followed by the literal call
`symlink(target, link_to)` (line 202 — note the argument order as written in
the source); any other kind → `err = -EOPNOTSUPP`.  On success of the body,
`copy_stat(target, stat)` then `unlink(source)`.  `readlink` is read-only and
modelled as succeeding with the node's stored link content. -/

def move_special (env : SysEnv) (source : String) (st : FtStat) (linkTo : String)
    (target : String) : Int × List FsOp :=
  if env.simulate then (0, []) else
  let body : Int × List FsOp :=
    if st.kind = FileKind.chr ∨ st.kind = FileKind.blk ∨ st.kind = FileKind.sock then
      -- mknod mode (mode|0600)&~0077: set rw for owner, clear group/other bits
      let op := FsOp.mknod target (((st.mode ||| 384) >>> 6) <<< 6) st.rdev
      if env.errno op ≠ 0 ∧ st.kind ≠ FileKind.sock then
        ((env.errno op : Int), [op])
      else
        -- socket-creation failure only logs a warning; fall through
        let cs := copy_stat env target st
        (cs.1, op :: cs.2)
    else if st.kind = FileKind.fifo then
      let op := FsOp.mkfifo target 384
      if env.errno op ≠ 0 then ((env.errno op : Int), [op])
      else
        let cs := copy_stat env target st
        (cs.1, op :: cs.2)
    else if st.kind = FileKind.lnk then
      let op := FsOp.symlink target linkTo
      if env.errno op ≠ 0 then ((env.errno op : Int), [op])
      else
        let cs := copy_stat env target st
        (cs.1, op :: cs.2)
    else
      (-(EOPNOTSUPP : Int), [])
  if body.1 = 0 then
    let opU := FsOp.unlink source
    if env.errno opU ≠ 0 then ((env.errno opU : Int), body.2 ++ [opU])
    else (0, body.2 ++ [opU])
  else body

/-! ### `fm_io_posix::copy_stream` and `fm_io_posix::move_file`
(part_000 lines 292–317 and 228–266) -/

/-- The sequence of `write()` chunks `copy_stream` issues for a source of
`n` bytes: 64 KiB buffer, a zero read ends the stream.  `EINTR` restarts are
invisible at this level; writes are modelled as succeeding. -/
def copy_stream_writes (n : Nat) : List FsOp :=
  if n = 0 then [] else
    FsOp.writeChunk (min n 65536) :: copy_stream_writes (n - min n 65536)
termination_by n
decreasing_by omega

/-- `move_file`: after the `simulate_run()` early return, `open(source,
O_RDONLY)` and `open(target, O_CREAT|O_WRONLY, stat.st_mode)` are both
attempted unconditionally; a later failure overwrites `err` of an earlier one;
`copy_stream` runs only when `err == 0`; then `copy_stat` and `unlink(source)`. -/
def move_file (env : SysEnv) (source : String) (st : FtStat) (contentLen : Nat)
    (target : String) : Int × List FsOp :=
  if env.simulate then (0, []) else
  let opIn := FsOp.openRead source
  let opOut := FsOp.openCreateWrite target st.mode
  let eIn := env.errno opIn
  let eOut := env.errno opOut
  let errOpen : Int := if eOut ≠ 0 then (eOut : Int) else if eIn ≠ 0 then (eIn : Int) else 0
  let t0 := [opIn, opOut]
  if errOpen ≠ 0 then (errOpen, t0)
  else
    let t1 := t0 ++ copy_stream_writes contentLen
    let cs := copy_stat env target st
    if cs.1 ≠ 0 then (cs.1, t1 ++ cs.2)
    else
      let opU := FsOp.unlink source
      if env.errno opU ≠ 0 then ((env.errno opU : Int), t1 ++ cs.2 ++ [opU])
      else (0, t1 ++ cs.2 ++ [opU])

/-- `fm_io_posix::create_dir` (part_000 lines 355–371): no-op under
`simulate_run()`, else `mkdir(dir, 0700)`. -/
def create_dir (env : SysEnv) (target : String) : Int × List FsOp :=
  if env.simulate then (0, []) else
  let op := FsOp.mkdir target 448
  if env.errno op ≠ 0 then ((env.errno op : Int), [op]) else (0, [op])

/-- `fm_io_posix::remove_dir` (part_000 lines 374–389): no-op under
`simulate_run()`, else `rmdir(dir)`. -/
def remove_dir (env : SysEnv) (source : String) : Int × List FsOp :=
  if env.simulate then (0, []) else
  let op := FsOp.rmdir source
  if env.errno op ≠ 0 then ((env.errno op : Int), [op]) else (0, [op])

/-- `fm_io_posix::move_rename` (part_000 lines 271–287): under
`simulate_run()` deliberately returns `EXDEV` without calling `rename`. -/
def move_rename (env : SysEnv) (source target : String) : Int × List FsOp :=
  if env.simulate then ((EXDEV : Int), []) else
  let op := FsOp.rename source target
  if env.errno op ≠ 0 then ((env.errno op : Int), [op]) else (0, [op])

/-! ### The recursive `fm_io_posix::move` (part_000 lines 97–151)

A source tree is modelled in memory; `lstat` reads the node's stored `FtStat`,
and the node's constructor mirrors the `S_ISREG`/`S_ISDIR` discrimination of
the stat mode.  Directory iteration yields the `SrcForest` entries in order;
entries named `.` or `..` are skipped by the code (lines 130–131). -/

mutual
inductive SrcNode where
  | file (st : FtStat) (contentLen : Nat)
  | special (st : FtStat) (linkTo : String)
  | dir (st : FtStat) (children : SrcForest)

inductive SrcForest where
  | nil
  | cons (name : String) (node : SrcNode) (rest : SrcForest)
end

mutual

/-- One `move(source_path, target_path)` call: regular file → `move_file`,
non-directory → `move_special`, directory → `opendir` (read-only, modelled as
succeeding), `create_dir`, recursion over children, `copy_stat` (note: called
with no `simulate_run()` guard, as in the source), `remove_dir`. -/
def moveNode (env : SysEnv) (source target : String) : SrcNode → Int × List FsOp
  | SrcNode.file st len => move_file env source st len target
  | SrcNode.special st linkTo => move_special env source st linkTo target
  | SrcNode.dir st children =>
    let cd := create_dir env target
    if cd.1 ≠ 0 then cd
    else
      let rc := moveForest env source target children
      if rc.1 ≠ 0 then (rc.1, cd.2 ++ rc.2)
      else
        let cs := copy_stat env target st
        if cs.1 ≠ 0 then (cs.1, cd.2 ++ rc.2 ++ cs.2)
        else
          let rd := remove_dir env source
          (rd.1, cd.2 ++ rc.2 ++ cs.2 ++ rd.2)

/-- The `while ((err = source_dir.next(dirent)) == 0 && dirent != NULL)` loop:
recursion stops at the first failing child. -/
def moveForest (env : SysEnv) (sourceP targetP : String) : SrcForest → Int × List FsOp
  | SrcForest.nil => (0, [])
  | SrcForest.cons name node rest =>
    if name = "." ∨ name = ".." then moveForest env sourceP targetP rest
    else
      let r := moveNode env (sourceP ++ "/" ++ name) (targetP ++ "/" ++ name) node
      if r.1 ≠ 0 then r
      else
        let r2 := moveForest env sourceP targetP rest
        (r2.1, r.2 ++ r2.2)

end

/-- `fm_io_posix::move()` entry point (part_000 lines 82–91): fast-path
rename; on any rename failure, `umask(0)` (process-local, untraced) and the
recursive move. -/
def fm_move (env : SysEnv) (sourceRoot targetRoot : String) (tree : SrcNode) :
    Int × List FsOp :=
  let mr := move_rename env sourceRoot targetRoot
  if mr.1 = 0 then mr
  else
    let r := moveNode env sourceRoot targetRoot tree
    (r.1, mr.2 ++ r.2)

/-! ## The remap engine's I/O (`ft_io_posix`, src/fsremap/src/tmp_zero.cc
second part, i.e. fsremap's io/io_posix.cc) -/

/-- File slots of `ft_io_posix::fd[]` used by the open/extent logic. -/
inductive FtFile where
  | device | loopFile | zeroFile | secondaryStorage
deriving DecidableEq, Repr

/-- The descriptor table and the remembered device length. `fd = -1` means
closed, as in the constructor (lines 138–144). -/
structure IoState where
  devLength : Nat
  fd : FtFile → Int

/-- `ft_io_posix::is_open0(i)`: `fd[i] >= 0` (line 153–156). -/
def is_open0 (s : IoState) (i : FtFile) : Bool := 0 ≤ s.fd i

/-- C conversion of a boolean to `int` (the value `!is_open0(...)` has in the
comparison of line 265). -/
def c_bool_to_int (b : Bool) : Int := if b then 1 else 0

/-- `ft_io_posix::is_open_extents` (lines 258–270), translated literally: the
`for` loop breaks at the first `i` with `(!is_open0(which[i])) < 0`, and the
result is `dev_length() != 0 && i == n`. -/
def is_open_extents (s : IoState) : Bool :=
  if s.devLength ≠ 0 then
    let which := [FtFile.loopFile, FtFile.zeroFile]
    (which.findIdx? fun w => decide (c_bool_to_int (!is_open0 s w) < 0)).isNone
  else false

/-- The predicate the spec names as intended for `is_open_extents`: device
length nonzero and both the LOOP-FILE and ZERO-FILE descriptors open. -/
def is_open_extents_intended (s : IoState) : Bool :=
  s.devLength ≠ 0 && is_open0 s FtFile.loopFile && is_open0 s FtFile.zeroFile

/-- The not-open guard of `ft_io_posix::read_extents` (lines 292–316): on
`!is_open_extents()` the method fails with `ENOTCONN`; result 0 means it
proceeds to the `ff_read_extents_posix` probe calls (external, spec §4.2). -/
def read_extents_guard (s : IoState) : Int :=
  if !is_open_extents s then (ENOTCONN : Int) else 0

/-! ## Storage creation (`ft_io_posix::create_storage`,
`create_secondary_storage`, `replace_storage_mmap`, `close_storage`) -/

/-- An extent of the remap engine: `(physical, logical, length)`. -/
structure Extent where
  physical : Nat
  logical : Nat
  length : Nat
deriving DecidableEq, Repr

/-- Outcome of one `replace_storage_mmap` call past its bounds check:
`munmap` failure, `mmap(MAP_FIXED)` failure, `MAP_FIXED` violated (a different
address returned), or success. -/
inductive ReplaceOutcome where
  | ok
  | munmapFail (e : Nat)
  | mmapFail (e : Nat)
  | moved
deriving DecidableEq, Repr

/-- Environment of a storage-creation run: one errno (0 = success) per
syscall, the `#ifdef FT_HAVE_POSIX_FALLOCATE` configuration, the
indeterminate content of the uninitialized `char zero[64*1024]` stack buffer
of `create_secondary_storage`, and the outcome of each
`replace_storage_mmap` call in call order. -/
structure StorageEnv where
  anonMmapErrno : Nat
  secOpenErrno : Nat
  haveFallocate : Bool
  fallocateErrno : Nat
  writeErrno : Nat
  stackBuf : Nat → Nat
  replaceOutcome : Nat → ReplaceOutcome

/-- Bytes appended to the secondary-storage file by the fallback `write()`
loop (lines 547–561): chunks of `min(64*1024, mem_len - pos)` bytes taken
from the start of the (uninitialized) stack buffer `zero`. -/
def fallback_fill (buf : Nat → Nat) (remaining : Nat) : List Nat :=
  if remaining = 0 then [] else
    let chunk := min remaining 65536
    ((List.range chunk).map buf) ++ fallback_fill buf (remaining - chunk)
termination_by remaining
decreasing_by omega

/-- Result of `create_secondary_storage`: the returned error, whether the
`.storage` file exists on disk on return, whether its descriptor is still
open, the bytes written into it before any unlink, and whether the
`secondary_storage()` extent was set to `(physical=0, logical=0, length)`. -/
structure SecResult where
  err : Int
  fileExists : Bool
  fdOpen : Bool
  contentWritten : List Nat
  extentSet : Bool
deriving Repr

/-- `ft_io_posix::create_secondary_storage(secondary_len)` (lines 509–582).

Order of the source: the `(ft_off)` cast check (fails for `len ≥ 2^63`; the
`(ft_size)` check cannot fail for a 64-bit `size_t`), `open(path,
O_RDWR|O_CREAT|O_TRUNC, 0600)`, then `posix_fallocate` when compiled in,
falling back on the `write()` loop.  Note two faithful details: the fallback
loop writes the uninitialized `zero` buffer (no memset), and when the
fallocate path ran and failed, `err` keeps fallocate's nonzero result even if
every fallback write succeeds.  The `secondary_storage()` extent is assigned
after the fill regardless of a write error (the inner `break` leaves only the
`while`).  On `err != 0` the unwind runs `close0(fd[j])` — the descriptor is
passed where a slot index is expected, so the secondary descriptor itself is
not closed — and, since `is_open0(j)` held, `unlink(path)`. -/
def create_secondary_storage (env : StorageEnv) (len : Nat) : SecResult :=
  if 2 ^ 63 ≤ len then
    ⟨(EOVERFLOW : Int), false, false, [], false⟩
  else if env.secOpenErrno ≠ 0 then
    ⟨(env.secOpenErrno : Int), false, false, [], false⟩
  else
    let fill : Int × List Nat :=
      if env.haveFallocate ∧ env.fallocateErrno = 0 then
        (0, List.replicate len 0)
      else
        let e0 : Int := if env.haveFallocate then (env.fallocateErrno : Int) else 0
        if len = 0 then (e0, [])
        else if env.writeErrno ≠ 0 then ((env.writeErrno : Int), [])
        else (e0, fallback_fill env.stackBuf len)
    if fill.1 ≠ 0 then
      ⟨fill.1, false, true, fill.2, true⟩
    else
      ⟨0, true, true, fill.2, true⟩

/-- The `replace_storage_mmap` loop of `create_storage`: each call first
checks `mem_start >= storage_mmap_size || mem_end > storage_mmap_size`
(`-EINVAL`), then munmaps and re-mmaps `MAP_FIXED`; a changed address is
`-EFAULT`.  Returns the error and the final `mem_offset`. -/
def run_replaces (env : StorageEnv) (size : Nat) :
    List Extent → Nat → Nat → Int × Nat
  | [], _, off => (0, off)
  | e :: rest, k, off =>
    if off ≥ size ∨ off + e.length > size then (-(EINVAL : Int), off)
    else
      match env.replaceOutcome k with
      | ReplaceOutcome.ok => run_replaces env size rest (k + 1) (off + e.length)
      | ReplaceOutcome.munmapFail er => ((er : Int), off)
      | ReplaceOutcome.mmapFail er => ((er : Int), off)
      | ReplaceOutcome.moved => (-(EFAULT : Int), off)

/-- Result of `create_storage`: the returned error, whether the anonymous
reservation is still mapped on return, `storage_mmap_size` on return, and the
secondary-storage file/descriptor state. -/
structure StorageResult where
  err : Int
  reservationMapped : Bool
  mmapSize : Nat
  secFileExists : Bool
  secFdOpen : Bool
deriving Repr

/-- `ft_io_posix::create_storage(secondary_len)` (lines 339–434) on a freshly
opened I/O (the `storage_mmap != MAP_FAILED || is_open0(j)` EISCONN guard does
not fire).  Steps: `primary_len` summed over `primary_storage()`; the
`(ft_size)` cast check on `total_len`; the `PROT_NONE` anonymous reservation;
`create_secondary_storage` when `secondary_len != 0`; `replace_storage_mmap`
over the primary extents and then the secondary extent; the final
`mem_offset == storage_mmap_size` consistency check.  On any error
`close_storage()` runs (lines 586–601): it munmaps the whole reservation,
zeroes `storage_mmap_size`, and calls `close0(FC_PRIMARY_STORAGE)`; it
neither closes the secondary descriptor nor unlinks the secondary file. -/
def create_storage (env : StorageEnv) (primary : List Extent)
    (secondaryLen : Nat) : StorageResult :=
  let primaryLen := (primary.map Extent.length).sum
  let totalLen := primaryLen + secondaryLen
  if 2 ^ 64 ≤ totalLen then
    ⟨(EOVERFLOW : Int), false, 0, false, false⟩
  else if env.anonMmapErrno ≠ 0 then
    ⟨(env.anonMmapErrno : Int), false, 0, false, false⟩
  else
    let sec : SecResult :=
      if secondaryLen ≠ 0 then create_secondary_storage env secondaryLen
      else ⟨0, false, false, [], false⟩
    if sec.err ≠ 0 then
      ⟨sec.err, false, 0, sec.fileExists, sec.fdOpen⟩
    else
      let allExtents :=
        primary ++ (if secondaryLen ≠ 0 then [(⟨0, 0, secondaryLen⟩ : Extent)] else [])
      let rp := run_replaces env totalLen allExtents 0 0
      let err2 : Int :=
        if rp.1 ≠ 0 then rp.1
        else if rp.2 ≠ totalLen then (EINVAL : Int) else 0
      if err2 ≠ 0 then
        ⟨err2, false, 0, sec.fileExists, sec.fdOpen⟩
      else
        ⟨0, true, totalLen, sec.fileExists, sec.fdOpen⟩

/-! ## Storage planner (spec-modelled) -/

/-- Modelled from the spec: step 3 of the planner algorithm (§4.4) — greedily
take candidate extents until the accumulated length reaches the budget,
trimming the last taken extent to land exactly on the budget; whatever is
still missing when the candidates run out is the deficit.  (The planner
itself, fsremap's work.cc, is not under src/.) -/
def plan_greedy (budget : Nat) : List Extent → List Extent × Nat
  | [] => ([], budget)
  | e :: rest =>
    if budget = 0 then ([], 0)
    else if budget ≤ e.length then ([{ e with length := budget }], 0)
    else
      let tail := plan_greedy (budget - e.length) rest
      (e :: tail.1, tail.2)

/-- Insertion step of the planner's sort: descending length, ties broken by
ascending physical offset. -/
def planInsert (e : Extent) : List Extent → List Extent
  | [] => [e]
  | x :: xs =>
    if x.length < e.length ∨ (x.length = e.length ∧ e.physical ≤ x.physical) then
      e :: x :: xs
    else x :: planInsert e xs

/-- Modelled from the spec: planner step 2 (§4.4) — sort candidate primary
extents by descending length, tie-break ascending physical offset. -/
def planSort : List Extent → List Extent
  | [] => []
  | e :: rest => planInsert e (planSort rest)

/-- Modelled from the spec: planner steps 2–3 (§4.4) — sort, greedy take; if
`exact` and the candidates fall short, fail `StorageTooSmall` (`none`), else
the shortfall becomes `secondary_length`. -/
def plan_storage (candidates : List Extent) (budget : Nat) (exact : Bool) :
    Option (List Extent × Nat) :=
  let taken := plan_greedy budget (planSort candidates)
  if exact ∧ taken.2 ≠ 0 then none else some taken

/-! ## The hole zeroer (`ff_zero_loop_file_holes`, tmp_zero.cc lines 32–103) -/

/-- The `while ((block_size_bitmask & 1) == 0)` count-trailing-zeros loop
(lines 60–66), guarded by `block_size_bitmask != 0`. -/
def ctz_loop (b : Nat) : Nat :=
  if b = 0 then 0 else if b % 2 = 1 then 0 else 1 + ctz_loop (b / 2)
termination_by b
decreasing_by omega

/-- `eff_block_size_log2` as computed by the zeroer: 0 when the bitmask is 0,
else the number of trailing zero bits. -/
def eff_block_size_log2 (bitmask : Nat) : Nat :=
  if bitmask = 0 then 0 else ctz_loop bitmask

/-- A block is covered by an extent list when it falls in some extent's
logical range, after the byte → block right shift of the extents. -/
def blockCovered (v : List Extent) (log2 blk : Nat) : Bool :=
  v.any fun e =>
    decide ((e.logical >>> log2) ≤ blk ∧ blk < (e.logical >>> log2) + (e.length >>> log2))

/-- Length of the maximal uncovered run starting at `start`, looking at most
`fuel` blocks ahead. -/
def runLen (cov : Nat → Bool) (start fuel : Nat) : Nat :=
  match fuel with
  | 0 => 0
  | f + 1 => if cov start then 0 else 1 + runLen cov (start + 1) f

/-- The maximal uncovered runs among blocks `[start, start + fuel)`, as
extents with `physical = logical =` run start. -/
def gapRuns (cov : Nat → Bool) (start fuel : Nat) : List Extent :=
  match fuel with
  | 0 => []
  | f + 1 =>
    if h : cov start then gapRuns cov (start + 1) f
    else
      (⟨start, start, runLen cov start (f + 1)⟩ : Extent) ::
        gapRuns cov (start + runLen cov start (f + 1)) (f + 1 - runLen cov start (f + 1))
termination_by fuel
decreasing_by
  all_goals first
  | omega
  | (have hr : runLen cov start (f + 1) = 1 + runLen cov (start + 1) f := by
       simp [runLen, h]
     omega)

/-- Modelled from the spec: `complement0_logical_shift(input, log2, total)`
(§4.1) — the input extents are in bytes and are shifted right by `log2` to
blocks; the result complements their logical coverage against
`[0, total >> log2)`, with output `logical = physical` (fsremap's map.cc is
not under src/). -/
def complement0_logical_shift (v : List Extent) (log2 totalLen : Nat) :
    List Extent :=
  gapRuns (blockCovered v log2) 0 (totalLen >>> log2)

/-- The successive `(position, length)` device writes the zeroer issues for
one hole: `lseek` to `offset`, then `write` chunks of
`min(left, 1024*1024)` zero bytes (lines 79–96). -/
def chunked_writes (offset left : Nat) : List (Nat × Nat) :=
  if left = 0 then [] else
    (offset, min left 1048576) ::
      chunked_writes (offset + min left 1048576) (left - min left 1048576)
termination_by left
decreasing_by omega

/-- The complete write trace of `ff_zero_loop_file_holes`, given the save
file's extent list and bitmask and the device length: for each extent of
`complement0_logical_shift(loop_extents, eff_block_size_log2, dev_len)`,
zeros at byte offset `physical << log2` for `length << log2` bytes. -/
def ff_zero_loop_file_holes (loopExtents : List Extent) (bitmask devLen : Nat) :
    List (Nat × Nat) :=
  let log2 := eff_block_size_log2 bitmask
  (complement0_logical_shift loopExtents log2 devLen).flatMap fun e =>
    chunked_writes (e.physical <<< log2) (e.length <<< log2)

/-- A byte is written by a write trace when some `(position, length)` write
covers it. -/
def writesByte (ws : List (Nat × Nat)) (b : Nat) : Bool :=
  ws.any fun w => decide (w.1 ≤ b ∧ b < w.1 + w.2)

/-! ## Environments used by concrete evaluations -/

/-- A mover run outside simulation mode in which every syscall succeeds. -/
def allOkEnv : SysEnv := ⟨false, fun _ => 0⟩

/-- A mover run in simulation mode in which every syscall succeeds. -/
def simEnv : SysEnv := ⟨true, fun _ => 0⟩

/-! # Theorems -/

/-- C1 counterexample: invoked with FOUR positional arguments (argument count
other than three, and not the single `--help`), `ft_transform::main` does not
print a usage error and return 1 — the `init` argument check only rejects
`argc <= 3`, so it proceeds. -/
theorem C1_counterexample :
    remapCmdline "fstransform" ["dev", "loop", "zero", "extra"] =
      CmdOutcome.proceed ∧
    remapCmdline "fstransform" ["dev", "loop", "zero", "extra"] ≠
      CmdOutcome.usageError1 := by
  constructor
  · rfl
  · decide

/-- C1 (amended): a single `--help` argument prints usage and returns 0;
FEWER than three positional arguments prints a usage error to stderr,
suggests `--help`, and returns 1; three OR MORE positional arguments proceed
(extra arguments beyond the third are ignored). -/
theorem C1_cmdline_dispatch (prog : String) (args : List String) :
    (args = ["--help"] → remapCmdline prog args = CmdOutcome.helpExit0) ∧
    (args ≠ ["--help"] → args.length < 3 →
      remapCmdline prog args = CmdOutcome.usageError1) ∧
    (args ≠ ["--help"] → 3 ≤ args.length →
      remapCmdline prog args = CmdOutcome.proceed) := by
  unfold remapCmdline ft_transform_cmdline
  refine ⟨?_, ?_, ?_⟩
  · rintro rfl
    simp
  · intro hne hlen
    have hcond : ¬((prog :: args).length = 2 ∧ (prog :: args).getD 1 "" = "--help") := by
      rintro ⟨h2, hh⟩
      simp only [List.length_cons] at h2
      obtain ⟨a, rfl⟩ : ∃ a, args = [a] := by
        cases args with
        | nil => simp at h2
        | cons x xs =>
          cases xs with
          | nil => exact ⟨x, rfl⟩
          | cons y ys => simp at h2
      simp only [List.getD, List.get?_cons_succ, List.get?_cons_zero,
        Option.getD_some] at hh
      exact hne (by rw [hh])
    rw [if_neg hcond]
    simp only [List.length_cons]
    split_ifs <;> first | rfl | omega
  · intro _ hlen
    have hcond : ¬((prog :: args).length = 2 ∧ (prog :: args).getD 1 "" = "--help") := by
      rintro ⟨h2, _⟩
      simp only [List.length_cons] at h2
      omega
    rw [if_neg hcond]
    simp only [List.length_cons]
    split_ifs <;> first | rfl | omega

/-- C1 witness: concrete invocations of the three amended cases. -/
theorem C1_witness :
    remapCmdline "fstransform" ["--help"] = CmdOutcome.helpExit0 ∧
    remapCmdline "fstransform" ["dev", "loop"] = CmdOutcome.usageError1 ∧
    remapCmdline "fstransform" ["dev", "loop", "zero"] = CmdOutcome.proceed :=
  ⟨(C1_cmdline_dispatch "fstransform" ["--help"]).1 rfl,
   (C1_cmdline_dispatch "fstransform" ["dev", "loop"]).2.1 (by decide) (by decide),
   (C1_cmdline_dispatch "fstransform" ["dev", "loop", "zero"]).2.2 (by decide) (by decide)⟩

/-- C2: moving a symbolic link `/mnt/src/link` whose content is `a.txt` to
`/mnt/dst/link`, the code reports success yet its one symlink-creation call is
`symlink("/mnt/dst/link", "a.txt")` — the C call's link-path argument is the
CONTENT string, so no symlink is created at the target path; the semantic
order `symlink(link_target, link_path)` required by the claim is violated. -/
theorem C2_symlink_swapped :
    (move_special allOkEnv "/mnt/src/link" ⟨FileKind.lnk, 511, 0, 0, 0, 0, 0⟩
        "a.txt" "/mnt/dst/link").1 = 0 ∧
    FsOp.symlink "/mnt/dst/link" "a.txt" ∈
      (move_special allOkEnv "/mnt/src/link" ⟨FileKind.lnk, 511, 0, 0, 0, 0, 0⟩
        "a.txt" "/mnt/dst/link").2 ∧
    symlinkPathOf (FsOp.symlink "/mnt/dst/link" "a.txt") = some "a.txt" ∧
    ∀ op ∈ (move_special allOkEnv "/mnt/src/link" ⟨FileKind.lnk, 511, 0, 0, 0, 0, 0⟩
        "a.txt" "/mnt/dst/link").2,
      symlinkPathOf op ≠ some "/mnt/dst/link" := by
  decide

/-- C3: in simulation mode, moving a directory still reaches `copy_stat`
(which has no `simulate_run()` guard), so real `utimes`, `lchown` and `chmod`
syscalls are attempted on the target — they are not no-ops as the claim
requires, although the simulated rename does return `EXDEV` as claimed. -/
theorem C3_simulation_not_noop :
    (move_rename simEnv "/mnt/src" "/mnt/dst").1 = (EXDEV : Int) ∧
    (fm_move simEnv "/mnt/src" "/mnt/dst"
        (SrcNode.dir ⟨FileKind.dir, 493, 1000, 1000, 5, 6, 0⟩ SrcForest.nil)).1 = 0 ∧
    (fm_move simEnv "/mnt/src" "/mnt/dst"
        (SrcNode.dir ⟨FileKind.dir, 493, 1000, 1000, 5, 6, 0⟩ SrcForest.nil)).2 =
      [FsOp.utimes "/mnt/dst" 5 6 0, FsOp.lchown "/mnt/dst" 1000 1000,
       FsOp.chmod "/mnt/dst" 493] := by
  decide

/-- C7: with a nonzero device length and BOTH the LOOP-FILE and ZERO-FILE
descriptors closed (`fd = -1`), `is_open_extents()` still returns true — the
comparison `!is_open0(which[i]) < 0` is always false — so `read_extents` does
not fail with the not-open error; the spec's intended predicate returns
false there. -/
theorem C7_is_open_extents_tautology :
    is_open_extents ⟨4096, fun _ => -1⟩ = true ∧
    is_open0 ⟨4096, fun _ => -1⟩ FtFile.loopFile = false ∧
    is_open0 ⟨4096, fun _ => -1⟩ FtFile.zeroFile = false ∧
    is_open_extents_intended ⟨4096, fun _ => -1⟩ = false ∧
    read_extents_guard ⟨4096, fun _ => -1⟩ = 0 := by
  decide

/-- Storage environment for the C5 evaluation: no fallocate compiled in, all
syscalls succeed, and the uninitialized stack buffer happens to hold the
byte 171 everywhere. -/
def c5Env : StorageEnv :=
  { anonMmapErrno := 0, secOpenErrno := 0, haveFallocate := false,
    fallocateErrno := 0, writeErrno := 0, stackBuf := fun _ => 171,
    replaceOutcome := fun _ => ReplaceOutcome.ok }

/-- C5: on the fallback write path, `create_secondary_storage(1)` reports
success, creates the file, records the `(0, 0, 1)` extent — but the one byte
written comes from the uninitialized `char zero[64*1024]` buffer (no memset
anywhere in the function), so the file content is NOT all zero. -/
theorem C5_fallback_writes_garbage :
    (create_secondary_storage c5Env 1).err = 0 ∧
    (create_secondary_storage c5Env 1).fileExists = true ∧
    (create_secondary_storage c5Env 1).extentSet = true ∧
    (create_secondary_storage c5Env 1).contentWritten = [171] ∧
    (create_secondary_storage c5Env 1).contentWritten ≠ List.replicate 1 0 := by
  have h0 : fallback_fill (fun _ => (171 : Nat)) 0 = [] := by
    rw [fallback_fill]
    simp
  have hfill : fallback_fill (fun _ => (171 : Nat)) 1 = [171] := by
    rw [fallback_fill]
    norm_num [h0, List.range_succ]
  refine ⟨?_, ?_, ?_, ?_, ?_⟩ <;>
    simp [create_secondary_storage, c5Env, hfill]

/-- C8: `copy_stat` attempts, in order, `utimes` (with both microsecond
fields 0, and its outcome never influencing the returned error), then
`lchown` whose failure is fatal and prevents the `chmod`, then — only when
the source is not a symlink — `chmod` to the source mode, strictly after the
`lchown`, whose failure is fatal. -/
theorem C8_copy_stat_order (env : SysEnv) (target : String) (st : FtStat) :
    ((copy_stat env target st).1 =
      (if env.errno (FsOp.lchown target st.uid st.gid) ≠ 0 then
        ((env.errno (FsOp.lchown target st.uid st.gid) : Int))
      else if st.kind = FileKind.lnk then 0
      else ((env.errno (FsOp.chmod target st.mode) : Int)))) ∧
    (env.errno (FsOp.lchown target st.uid st.gid) ≠ 0 →
      (copy_stat env target st).2 =
        [FsOp.utimes target st.atime st.mtime 0,
         FsOp.lchown target st.uid st.gid] ∧
      (copy_stat env target st).1 ≠ 0) ∧
    (env.errno (FsOp.lchown target st.uid st.gid) = 0 → st.kind = FileKind.lnk →
      (copy_stat env target st).1 = 0 ∧
      (copy_stat env target st).2 =
        [FsOp.utimes target st.atime st.mtime 0,
         FsOp.lchown target st.uid st.gid]) ∧
    (env.errno (FsOp.lchown target st.uid st.gid) = 0 → st.kind ≠ FileKind.lnk →
      (copy_stat env target st).2 =
        [FsOp.utimes target st.atime st.mtime 0,
         FsOp.lchown target st.uid st.gid,
         FsOp.chmod target st.mode] ∧
      (env.errno (FsOp.chmod target st.mode) ≠ 0 →
        (copy_stat env target st).1 ≠ 0)) := by
  unfold copy_stat
  refine ⟨?_, ?_, ?_, ?_⟩
  · by_cases h1 : env.errno (FsOp.lchown target st.uid st.gid) ≠ 0
    · rw [if_pos h1, if_pos h1]
    · rw [if_neg h1, if_neg h1]
      by_cases h2 : st.kind = FileKind.lnk
      · rw [if_pos h2, if_pos h2]
      · rw [if_neg h2, if_neg h2]
        by_cases h3 : env.errno (FsOp.chmod target st.mode) ≠ 0
        · rw [if_pos h3]
        · rw [if_neg h3]
          push_neg at h3
          simp [h3]
  · intro h
    rw [if_pos h]
    refine ⟨rfl, ?_⟩
    simpa using h
  · intro h hk
    rw [if_neg (by simpa using h), if_pos hk]
    exact ⟨rfl, rfl⟩
  · intro h hk
    rw [if_neg (by simpa using h), if_neg hk]
    split_ifs with hc
    · exact ⟨rfl, fun _ => by simpa using hc⟩
    · exact ⟨rfl, fun hx => absurd hx hc⟩

/-- C8 witness: concrete evaluations for a regular file with every syscall
succeeding, and for a failing `lchown`. -/
theorem C8_witness :
    (copy_stat allOkEnv "t" ⟨FileKind.reg, 420, 1, 2, 3, 4, 0⟩).2 =
      [FsOp.utimes "t" 3 4 0, FsOp.lchown "t" 1 2, FsOp.chmod "t" 420] ∧
    (copy_stat ⟨false, fun _ => 13⟩ "t" ⟨FileKind.reg, 420, 1, 2, 3, 4, 0⟩).2 =
      [FsOp.utimes "t" 3 4 0, FsOp.lchown "t" 1 2] :=
  ⟨((C8_copy_stat_order allOkEnv "t" ⟨FileKind.reg, 420, 1, 2, 3, 4, 0⟩).2.2.2
      rfl (by decide)).1,
   ((C8_copy_stat_order ⟨false, fun _ => 13⟩ "t"
      ⟨FileKind.reg, 420, 1, 2, 3, 4, 0⟩).2.1 (by decide)).1⟩

/-- C10: outside simulation mode, whenever opening the source read-only
fails, `move_file` still issues `open(target, O_CREAT|O_WRONLY, st_mode)` —
which may create an empty file at the target — and returns a nonzero error,
so the target filesystem state is not left unchanged on this error. -/
theorem C10_target_created_despite_unreadable_source
    (env : SysEnv) (source target : String) (st : FtStat) (len : Nat)
    (hsim : env.simulate = false)
    (hin : env.errno (FsOp.openRead source) ≠ 0) :
    (move_file env source st len target).1 ≠ 0 ∧
    FsOp.openCreateWrite target st.mode ∈ (move_file env source st len target).2 := by
  unfold move_file
  rw [hsim]
  simp only [Bool.false_eq_true, if_false]
  by_cases hout : env.errno (FsOp.openCreateWrite target st.mode) ≠ 0
  · rw [if_pos hout]
    have : ((env.errno (FsOp.openCreateWrite target st.mode) : Int)) ≠ 0 := by
      simpa using hout
    rw [if_pos this]
    exact ⟨this, by simp⟩
  · rw [if_neg hout]
    have : ((env.errno (FsOp.openRead source) : Int)) ≠ 0 := by
      simpa using hin
    rw [if_pos hin, if_pos this]
    exact ⟨this, by simp⟩

/-- C10 witness: a concrete environment in which only the source open fails. -/
theorem C10_witness :
    (move_file ⟨false, fun op => if op = FsOp.openRead "s" then 13 else 0⟩
        "s" ⟨FileKind.reg, 420, 0, 0, 0, 0, 0⟩ 0 "t").1 ≠ 0 ∧
    FsOp.openCreateWrite "t" 420 ∈
      (move_file ⟨false, fun op => if op = FsOp.openRead "s" then 13 else 0⟩
        "s" ⟨FileKind.reg, 420, 0, 0, 0, 0, 0⟩ 0 "t").2 :=
  C10_target_created_despite_unreadable_source
    ⟨false, fun op => if op = FsOp.openRead "s" then 13 else 0⟩
    "s" "t" ⟨FileKind.reg, 420, 0, 0, 0, 0, 0⟩ 0 rfl (by decide)

/-- Storage environment for the C4 evaluation: fallocate available and
successful, every earlier syscall succeeds, and every `replace_storage_mmap`
call violates `MAP_FIXED` by returning a different address. -/
def c4Env : StorageEnv :=
  { anonMmapErrno := 0, secOpenErrno := 0, haveFallocate := true,
    fallocateErrno := 0, writeErrno := 0, stackBuf := fun _ => 0,
    replaceOutcome := fun _ => ReplaceOutcome.moved }

/-- C4 counterexample: the reservation is mapped, the secondary-storage file
is created successfully, then the first `MAP_FIXED` replacement returns a
different address (`-EFAULT`).  The unwind (`close_storage`) unmaps the whole
reservation but does NOT unlink the secondary-storage file — it stays on
disk, its descriptor still open — refuting the claim as stated. -/
theorem C4_counterexample :
    (create_storage c4Env [⟨100, 0, 50⟩] 50).err = -(EFAULT : Int) ∧
    (create_storage c4Env [⟨100, 0, 50⟩] 50).reservationMapped = false ∧
    (create_storage c4Env [⟨100, 0, 50⟩] 50).secFileExists = true ∧
    (create_storage c4Env [⟨100, 0, 50⟩] 50).secFdOpen = true := by
  decide

/-- C4 (amended): for every failure of `create_storage` occurring after the
anonymous reservation has been mapped, the unwind unmaps the whole
reservation and zeroes `storage_mmap_size`; but the secondary-storage file is
unlinked only by `create_secondary_storage`'s own error path — on failures
after successful secondary-storage creation (including a `MAP_FIXED`
replacement returning a different address) the file is left on disk. -/
theorem C4_unwind (env : StorageEnv) (primary : List Extent) (secondaryLen : Nat)
    (hres : env.anonMmapErrno = 0)
    (hfit : (primary.map Extent.length).sum + secondaryLen < 2 ^ 64)
    (herr : (create_storage env primary secondaryLen).err ≠ 0) :
    (create_storage env primary secondaryLen).reservationMapped = false ∧
    (create_storage env primary secondaryLen).mmapSize = 0 ∧
    (create_storage env primary secondaryLen).secFileExists =
      (decide (secondaryLen ≠ 0) &&
        (create_secondary_storage env secondaryLen).fileExists) := by
  have hov : ¬(2 ^ 64 ≤ (primary.map Extent.length).sum + secondaryLen) := by omega
  simp only [create_storage] at herr ⊢
  rw [if_neg hov, if_neg (by simp [hres])] at herr ⊢
  split_ifs at herr ⊢ <;> simp_all

/-- C4 witness for the amended theorem: the `MAP_FIXED`-moved scenario. -/
theorem C4_witness :
    (create_storage c4Env [⟨100, 0, 50⟩] 50).reservationMapped = false ∧
    (create_storage c4Env [⟨100, 0, 50⟩] 50).mmapSize = 0 ∧
    (create_storage c4Env [⟨100, 0, 50⟩] 50).secFileExists =
      (decide ((50 : Nat) ≠ 0) && (create_secondary_storage c4Env 50).fileExists) :=
  C4_unwind c4Env [⟨100, 0, 50⟩] 50 rfl (by decide) (by decide)

/-- The greedy take of the (spec-modelled) planner always accounts for the
whole budget: taken lengths plus deficit equal the budget. -/
theorem plan_greedy_sum (l : List Extent) (budget : Nat) :
    (((plan_greedy budget l).1.map Extent.length).sum + (plan_greedy budget l).2
      = budget) := by
  induction l generalizing budget with
  | nil => simp [plan_greedy]
  | cons e rest ih =>
    unfold plan_greedy
    split_ifs with h0 h1
    · simp [h0]
    · simp
    · simp only [List.map_cons, List.sum_cons]
      have := ih (budget - e.length)
      omega

/-- A successful plan splits the requested budget exactly into primary
lengths plus the secondary length. -/
theorem plan_storage_sum (cands : List Extent) (budget : Nat) (exact : Bool)
    (primary : List Extent) (secondaryLen : Nat)
    (h : plan_storage cands budget exact = some (primary, secondaryLen)) :
    (primary.map Extent.length).sum + secondaryLen = budget := by
  simp only [plan_storage] at h
  split_ifs at h
  rw [Option.some.injEq] at h
  have h3 := plan_greedy_sum (planSort cands) budget
  rw [h] at h3
  simpa using h3

/-- C6: whenever the (spec-modelled) planner succeeds and the subsequent
`create_storage` succeeds, the size of the single contiguous mapped region
equals the sum of the primary-storage extent lengths plus the
secondary-storage length, and this equals the requested storage budget. -/
theorem C6_storage_totals (cands : List Extent) (budget : Nat) (exact : Bool)
    (primary : List Extent) (secondaryLen : Nat) (env : StorageEnv)
    (hplan : plan_storage cands budget exact = some (primary, secondaryLen))
    (hok : (create_storage env primary secondaryLen).err = 0) :
    (create_storage env primary secondaryLen).mmapSize =
      (primary.map Extent.length).sum + secondaryLen ∧
    (create_storage env primary secondaryLen).mmapSize = budget := by
  have hsize : (create_storage env primary secondaryLen).mmapSize =
      (primary.map Extent.length).sum + secondaryLen := by
    simp only [create_storage] at hok ⊢
    split_ifs at hok ⊢ <;> simp_all [EOVERFLOW, EINVAL]
  exact ⟨hsize, by rw [hsize, plan_storage_sum cands budget exact primary secondaryLen hplan]⟩

/-- C6 witness: a one-candidate exact plan of budget 60 followed by a fully
successful storage creation. -/
theorem C6_witness :
    (create_storage c5Env [⟨0, 0, 60⟩] 0).mmapSize =
      (([⟨0, 0, 60⟩] : List Extent).map Extent.length).sum + 0 ∧
    (create_storage c5Env [⟨0, 0, 60⟩] 0).mmapSize = 60 :=
  C6_storage_totals [⟨0, 0, 100⟩] 60 true [⟨0, 0, 60⟩] 0 c5Env (by decide) (by decide)

/-! ## Supporting lemmas for the hole zeroer -/

theorem runLen_le (cov : Nat → Bool) (fuel : Nat) :
    ∀ start, runLen cov start fuel ≤ fuel := by
  induction fuel with
  | zero => intro start; simp [runLen]
  | succ f ih =>
    intro start
    simp only [runLen]
    split_ifs with h
    · omega
    · have := ih (start + 1)
      omega

theorem runLen_uncovered (cov : Nat → Bool) (fuel : Nat) :
    ∀ start i, i < runLen cov start fuel → cov (start + i) = false := by
  induction fuel with
  | zero => intro start i h; simp [runLen] at h
  | succ f ih =>
    intro start i h
    simp only [runLen] at h
    split_ifs at h with hc
    · omega
    · cases i with
      | zero => simpa using eq_false_of_ne_true hc
      | succ j =>
        have hj := ih (start + 1) j (by omega)
        have : start + (j + 1) = start + 1 + j := by omega
        rw [this]
        exact hj

/-- The extents produced by `gapRuns cov start fuel` cover, as half-open
block ranges, exactly the uncovered blocks of `[start, start + fuel)`. -/
theorem gapRuns_mem (cov : Nat → Bool) :
    ∀ fuel start blk,
      ((∃ e ∈ gapRuns cov start fuel, e.physical ≤ blk ∧ blk < e.physical + e.length)
        ↔ (start ≤ blk ∧ blk < start + fuel ∧ cov blk = false)) := by
  intro fuel
  induction fuel using Nat.strong_induction_on with
  | _ fuel IH =>
    intro start blk
    cases fuel with
    | zero =>
      rw [gapRuns]
      simp only [List.not_mem_nil, false_and, exists_false, false_iff]
      omega
    | succ f =>
      rw [gapRuns]
      by_cases hc : cov start
      · rw [dif_pos hc]
        rw [IH f (by omega) (start + 1) blk]
        constructor
        · rintro ⟨h1, h2, h3⟩
          exact ⟨by omega, by omega, h3⟩
        · rintro ⟨h1, h2, h3⟩
          refine ⟨?_, by omega, h3⟩
          rcases Nat.eq_or_lt_of_le h1 with heq | hlt
          · rw [← heq] at h3
            rw [hc] at h3
            cases h3
          · omega
      · rw [dif_neg hc]
        have hr1 : 1 ≤ runLen cov start (f + 1) := by
          simp only [runLen]
          rw [if_neg hc]
          omega
        have hrle : runLen cov start (f + 1) ≤ f + 1 := runLen_le cov (f + 1) start
        constructor
        · rintro ⟨e, he, hb1, hb2⟩
          rcases List.mem_cons.mp he with rfl | he'
          · refine ⟨hb1, by simp only at hb1 hb2; omega, ?_⟩
            simp only at hb1 hb2
            have hu := runLen_uncovered cov (f + 1) start (blk - start) (by omega)
            rwa [Nat.add_sub_cancel' hb1] at hu
          · have hIH := (IH (f + 1 - runLen cov start (f + 1)) (by omega)
              (start + runLen cov start (f + 1)) blk).mp ⟨e, he', hb1, hb2⟩
            exact ⟨by omega, by omega, hIH.2.2⟩
        · rintro ⟨h1, h2, h3⟩
          by_cases hblk : blk < start + runLen cov start (f + 1)
          · exact ⟨⟨start, start, runLen cov start (f + 1)⟩,
              List.mem_cons_self _ _, h1, hblk⟩
          · have hIH := (IH (f + 1 - runLen cov start (f + 1)) (by omega)
              (start + runLen cov start (f + 1)) blk).mpr ⟨by omega, by omega, h3⟩
            obtain ⟨e, he, hp⟩ := hIH
            exact ⟨e, List.mem_cons_of_mem _ he, hp⟩

/-- The chunked write sequence for one hole covers exactly the bytes
`[offset, offset + left)`. -/
theorem chunked_writes_mem (b : Nat) :
    ∀ left offset, (writesByte (chunked_writes offset left) b = true ↔
      (offset ≤ b ∧ b < offset + left)) := by
  intro left
  induction left using Nat.strong_induction_on with
  | _ left IH =>
    intro offset
    by_cases h0 : left = 0
    · subst h0
      rw [chunked_writes]
      simp [writesByte]
    · rw [chunked_writes, if_neg h0]
      have hm1 : 1 ≤ min left 1048576 := by omega
      have hmle : min left 1048576 ≤ left := by omega
      have hrest := IH (left - min left 1048576) (by omega) (offset + min left 1048576)
      simp only [writesByte, List.any_cons, Bool.or_eq_true, decide_eq_true_eq] at hrest ⊢
      rw [hrest]
      omega

/-- `writesByte` distributes over the per-hole `flatMap`. -/
theorem writesByte_flatMap (f : Extent → List (Nat × Nat)) (l : List Extent) (b : Nat) :
    writesByte (l.flatMap f) b = l.any fun e => writesByte (f e) b := by
  induction l with
  | nil => rfl
  | cons e rest ih =>
    rw [List.flatMap_cons]
    simp only [writesByte, List.any_append, List.any_cons] at ih ⊢
    rw [ih]

theorem shiftLeft_add_distrib (x y l : Nat) : (x + y) <<< l = x <<< l + y <<< l := by
  simp [Nat.shiftLeft_eq, Nat.add_mul]

theorem shiftLeft_le_iff (x b l : Nat) : x <<< l ≤ b ↔ x ≤ b >>> l := by
  rw [Nat.shiftLeft_eq, Nat.shiftRight_eq_div_pow]
  exact (Nat.le_div_iff_mul_le (Nat.two_pow_pos l)).symm

theorem lt_shiftLeft_iff (b y l : Nat) : b < y <<< l ↔ b >>> l < y := by
  rw [Nat.shiftLeft_eq, Nat.shiftRight_eq_div_pow]
  exact (Nat.div_lt_iff_lt_mul (Nat.two_pow_pos l)).symm

/-- C9: for every loop-extent list, bitmask and device length read from the
SAVE-FILE, the hole zeroer writes a byte if and only if it lies in one of the
byte ranges obtained by shifting an extent of
`complement0_logical_shift(loop_extents, eff_block_size_log2, dev_len)` back
to bytes — equivalently, if and only if its block is inside the device and
not covered by the loop-file extents — and writes nothing anywhere else. -/
theorem C9_zeroer_writes_exactly_holes (loopExtents : List Extent)
    (bitmask devLen b : Nat) :
    (writesByte (ff_zero_loop_file_holes loopExtents bitmask devLen) b = true ↔
      ∃ e ∈ complement0_logical_shift loopExtents (eff_block_size_log2 bitmask) devLen,
        (e.physical <<< eff_block_size_log2 bitmask) ≤ b ∧
          b < ((e.physical + e.length) <<< eff_block_size_log2 bitmask)) ∧
    (writesByte (ff_zero_loop_file_holes loopExtents bitmask devLen) b = true ↔
      ((b >>> eff_block_size_log2 bitmask) < (devLen >>> eff_block_size_log2 bitmask) ∧
        blockCovered loopExtents (eff_block_size_log2 bitmask)
          (b >>> eff_block_size_log2 bitmask) = false)) := by
  have hA : writesByte (ff_zero_loop_file_holes loopExtents bitmask devLen) b = true ↔
      ∃ e ∈ complement0_logical_shift loopExtents (eff_block_size_log2 bitmask) devLen,
        (e.physical <<< eff_block_size_log2 bitmask) ≤ b ∧
          b < ((e.physical + e.length) <<< eff_block_size_log2 bitmask) := by
    simp only [ff_zero_loop_file_holes]
    rw [writesByte_flatMap, List.any_eq_true]
    refine exists_congr fun e => and_congr_right fun _ => ?_
    rw [chunked_writes_mem, shiftLeft_add_distrib]
  have hB : (∃ e ∈ complement0_logical_shift loopExtents (eff_block_size_log2 bitmask) devLen,
        (e.physical <<< eff_block_size_log2 bitmask) ≤ b ∧
          b < ((e.physical + e.length) <<< eff_block_size_log2 bitmask)) ↔
      ((b >>> eff_block_size_log2 bitmask) < (devLen >>> eff_block_size_log2 bitmask) ∧
        blockCovered loopExtents (eff_block_size_log2 bitmask)
          (b >>> eff_block_size_log2 bitmask) = false) := by
    unfold complement0_logical_shift
    constructor
    · rintro ⟨e, he, h1, h2⟩
      have h1' := (shiftLeft_le_iff e.physical b (eff_block_size_log2 bitmask)).mp h1
      have h2' := (lt_shiftLeft_iff b (e.physical + e.length) (eff_block_size_log2 bitmask)).mp h2
      have hg := (gapRuns_mem (blockCovered loopExtents (eff_block_size_log2 bitmask))
        (devLen >>> eff_block_size_log2 bitmask) 0 (b >>> eff_block_size_log2 bitmask)).mp
        ⟨e, he, h1', h2'⟩
      exact ⟨by omega, hg.2.2⟩
    · rintro ⟨hlt, hcov⟩
      obtain ⟨e, he, hp1, hp2⟩ :=
        (gapRuns_mem (blockCovered loopExtents (eff_block_size_log2 bitmask))
          (devLen >>> eff_block_size_log2 bitmask) 0 (b >>> eff_block_size_log2 bitmask)).mpr
          ⟨Nat.zero_le _, by omega, hcov⟩
      exact ⟨e, he,
        (shiftLeft_le_iff e.physical b (eff_block_size_log2 bitmask)).mpr hp1,
        (lt_shiftLeft_iff b (e.physical + e.length) (eff_block_size_log2 bitmask)).mpr hp2⟩
  exact ⟨hA, hA.trans hB⟩

end Fstransform
